import Mathlib

/-!
Verification of the REMOVE-URL media bot against its specification.

The definitions below are a shallow embedding of the Python sources:
pure string manipulation becomes Lean functions on `List Char`/`String`,
external effects (Telegram client calls, MongoDB, the filesystem and the
ffmpeg subprocess) become explicit parameters describing each call's
outcome, and exception handling becomes explicit `Except` recovery.
-/

namespace RemoveUrl

/-! ## Retention sweeper (src/src/file_manager.py, `FileManager.cleanup_temp_files`)

A directory entry as the sweep observes it: its name, its modification
time (`os.path.getmtime`), whether it is a regular file (`os.path.isfile`),
and whether the `os.remove` call on it succeeds (`removeOk = false` models
`os.remove` raising, e.g. permission denied or already gone). -/

structure TempFile where
  name : String
  mtime : Int
  isFile : Bool
  removeOk : Bool
deriving DecidableEq, Repr

/-- `os.remove`: raises (modelled as `.error`) when the deletion fails. -/
def os_remove (f : TempFile) : Except String Unit :=
  if f.removeOk then Except.ok () else Except.error ("Error removing " ++ f.name)

/-- The per-file loop of `cleanup_temp_files`: skip non-files, delete files
with `mtime < cutoff`, catch and log a failed delete, keep everything else.
Returns the surviving entries and the logged error messages, in order. -/
def sweepFiles (cutoff : Int) : List TempFile → List TempFile × List String
  | [] => ([], [])
  | f :: rest =>
    let r := sweepFiles cutoff rest
    if f.isFile then
      if f.mtime < cutoff then
        match os_remove f with
        | Except.ok _ => r
        | Except.error e => (f :: r.1, e :: r.2)
      else (f :: r.1, r.2)
    else (f :: r.1, r.2)

/-- `FileManager.cleanup_temp_files(older_than_hours)`: the cutoff is
`datetime.now().timestamp() - older_than_hours * 3600`, and a file is
deleted exactly when `getmtime(file) < cutoff`. -/
def cleanup_temp_files (now : Int) (older_than_hours : Nat) (files : List TempFile) :
    List TempFile × List String :=
  sweepFiles (now - (older_than_hours : Int) * 3600) files

/-- Whether the sweep deletes this entry: a regular file, older than the
cutoff, whose `os.remove` succeeds. -/
def sweptAway (cutoff : Int) (f : TempFile) : Bool :=
  f.isFile && decide (f.mtime < cutoff) && f.removeOk

/-- Whether the sweep attempts but fails to delete this entry. -/
def sweepFailed (cutoff : Int) (f : TempFile) : Bool :=
  f.isFile && decide (f.mtime < cutoff) && !f.removeOk

lemma sweepFiles_eq (cutoff : Int) (files : List TempFile) :
    sweepFiles cutoff files =
      (files.filter (fun f => !sweptAway cutoff f),
       (files.filter (sweepFailed cutoff)).map (fun f => "Error removing " ++ f.name)) := by
  induction files with
  | nil => rfl
  | cons f rest ih =>
    simp only [sweepFiles, ih, sweptAway, sweepFailed, os_remove, List.filter]
    by_cases hm : f.mtime < cutoff <;> cases hf : f.isFile <;>
      cases hr : f.removeOk <;> simp [hf, hm, hr]

/-! ## Watermark removal (src/video_processor.py, `VideoProcessor.remove_watermark`)

`remove_watermark` builds an ffmpeg command with a fixed `delogo` video
filter and `-c:a copy`, runs it with `check=True` (so a non-zero exit
raises `CalledProcessError`), and catches every exception by printing it
and returning the input path. -/

/-- `os.path.basename`: the part of the path after the last slash. -/
def baseName (p : String) : String :=
  String.mk ((p.toList.reverse.takeWhile (fun c => c ≠ '/')).reverse)

/-- The output path `os.path.join("temp", "no_watermark_" + basename(video_path))`. -/
def watermark_output_path (videoPath : String) : String :=
  "temp/no_watermark_" ++ baseName videoPath

/-- The exact argument list `remove_watermark` passes to `subprocess.run`. -/
def watermark_command (videoPath : String) : List String :=
  ["ffmpeg", "-i", videoPath,
   "-vf", "delogo=x=10:y=10:w=100:h=30:show=0",
   "-c:a", "copy",
   watermark_output_path videoPath]

/-- Outcome of the `subprocess.run(..., check=True, capture_output=True)`
call: a zero exit (recording whether the output file exists afterwards),
or an exception — in particular `CalledProcessError` with the captured
diagnostic output on a non-zero exit. -/
inductive SubprocOutcome where
  | exit0 (outputExists : Bool)
  | raised (stderr : String)
deriving DecidableEq, Repr

/-- `VideoProcessor.remove_watermark`: returns the input path unchanged when
the feature flag is off; otherwise runs the subprocess, returning the output
path when it exists, and — through the `except` clause — the input path on
any exception (including a non-zero subprocess exit). -/
def remove_watermark (removeFlag : Bool) (videoPath : String)
    (run : SubprocOutcome) : String :=
  if removeFlag then
    match run with
    | SubprocOutcome.exit0 outputExists =>
        if outputExists then watermark_output_path videoPath else videoPath
    | SubprocOutcome.raised _ => videoPath
  else videoPath

/-! ### A model of the external media filter, for the audio-copy claim.

ffmpeg itself is not part of this repository; its option semantics are
modelled from the spec. -/

/-- Whether a command-line argument is an option flag (starts with `-`). -/
def isFlag (s : String) : Bool :=
  match s.toList with
  | '-' :: _ => true
  | _ => false

/-- ffmpeg option parsing: each `-flag` consumes the following argument as
its value; a bare argument (the program name, an input or output path) is
skipped. -/
def optPairs : List String → List (String × String)
  | a :: b :: rest =>
    if isFlag a then (a, b) :: optPairs rest else optPairs (b :: rest)
  | _ => []

/-- An abstract media file: an opaque video stream and an opaque audio
byte stream. -/
structure MediaFile where
  video : List Nat
  audio : List Nat
deriving DecidableEq, Repr

/-- Modelled from the spec: the external media-filter subprocess (ffmpeg)
is an OS-process collaborator, not repository code.  Per the spec it
applies the `-vf` filter directive to every video frame, "re-encoding
video while passing audio through unchanged" when the audio codec option
`-c:a` is `copy`; with any other audio codec the audio stream would be
re-encoded.  The video-filter and audio-encoder transformations themselves
stay abstract (`applyVf`, `encodeAudio`). -/
def ffmpegModel (encodeAudio : List Nat → List Nat)
    (applyVf : String → List Nat → List Nat)
    (cmd : List String) (input : MediaFile) : MediaFile :=
  { video :=
      match (optPairs cmd).lookup "-vf" with
      | some f => applyVf f input.video
      | none => input.video
    audio :=
      if (optPairs cmd).lookup "-c:a" = some "copy" then input.audio
      else encodeAudio input.audio }

/-! ## Parameter Resolver (spec §4.1)

Modelled from the spec: the Parameter Resolver component is not present in
the source tree — the filter-graph caller in src/video_processor.py
hard-codes its parameter string (`delogo=x=10:y=10:w=100:h=30`) instead of
computing one — so the resolver below follows the spec's words: `key=value`
pairs separated by `:`, unknown keys ignored, defaults `w=150,h=50,x=0,y=0`,
`x`/`y` either a literal integer or an opposite-edge expression
`iw-<offset>` / `ih-<offset>` resolved as `axis_total - offset - own
dimension`, clamped to `>= 0`; any parse failure falls back to the key's
default. -/

/-- A positional value: a literal, or the opposite-edge expression
(`iw-<offset>` for `x`, `ih-<offset>` for `y`). -/
inductive AxisVal where
  | lit (n : Nat)
  | edge (offset : Nat)
deriving DecidableEq, Repr

/-- The four watermark-rectangle parameters before resolution. -/
structure RawParams where
  x : AxisVal
  y : AxisVal
  w : Nat
  h : Nat
deriving DecidableEq, Repr

/-- The spec's defaults `w=150, h=50, x=0, y=0`. -/
def defaultParams : RawParams := ⟨AxisVal.lit 0, AxisVal.lit 0, 150, 50⟩

/-- Split a character list on a separator character. -/
def splitOnChar (sep : Char) : List Char → List (List Char)
  | [] => [[]]
  | c :: rest =>
    let r := splitOnChar sep rest
    if c = sep then [] :: r
    else
      match r with
      | [] => [[c]]
      | g :: gs => (c :: g) :: gs

/-- Parse a non-empty all-digit character list as a natural number. -/
def parseNatAux : List Char → Nat → Option Nat
  | [], acc => some acc
  | c :: rest, acc =>
    if c.isDigit then parseNatAux rest (acc * 10 + (c.toNat - 48)) else none

def parseNatQ : List Char → Option Nat
  | [] => none
  | l => parseNatAux l 0

/-- Parse the value of an `x`/`y` key: either `<axis>-<offset>` (e.g.
`iw-160`) or a literal integer; `none` on parse failure. -/
def parseAxisVal (axis : List Char) (v : List Char) : Option AxisVal :=
  if v.take (axis.length + 1) = axis ++ ['-'] then
    (parseNatQ (v.drop (axis.length + 1))).map AxisVal.edge
  else
    (parseNatQ v).map AxisVal.lit

/-- Fold one `key=value` pair into the parameter record; unknown keys and
parse failures leave the record unchanged (silent fallback to defaults). -/
def applyPair (p : RawParams) (pair : List Char) : RawParams :=
  match splitOnChar '=' pair with
  | [k, v] =>
    if k = ['x'] then
      match parseAxisVal ['i', 'w'] v with
      | some a => { p with x := a }
      | none => p
    else if k = ['y'] then
      match parseAxisVal ['i', 'h'] v with
      | some a => { p with y := a }
      | none => p
    else if k = ['w'] then
      match parseNatQ v with
      | some n => { p with w := n }
      | none => p
    else if k = ['h'] then
      match parseNatQ v with
      | some n => { p with h := n }
      | none => p
    else p
  | _ => p

/-- Parse a compact parameter string such as `x=iw-160:y=ih-60:w=150:h=50`. -/
def parseParams (s : String) : RawParams :=
  (splitOnChar ':' s.toList).foldl applyPair defaultParams

/-- Resolve one axis: a literal is used as is; the opposite-edge form is
`axis_total - offset - own dimension`, clamped to `>= 0` (the `Int`
subtraction followed by `toNat` is exactly `max 0`). -/
def resolveAxis (axisTotal own : Nat) : AxisVal → Nat
  | AxisVal.lit n => n
  | AxisVal.edge offset => ((axisTotal : Int) - (offset : Int) - (own : Int)).toNat

/-- The resolved absolute rectangle. -/
structure Rect where
  x : Nat
  y : Nat
  w : Nat
  h : Nat
deriving DecidableEq, Repr

/-- Resolve parsed parameters against the actual frame dimensions. -/
def resolveRawParams (p : RawParams) (frameWidth frameHeight : Nat) : Rect :=
  ⟨resolveAxis frameWidth p.w p.x, resolveAxis frameHeight p.h p.y, p.w, p.h⟩

/-- The Parameter Resolver: parameter string plus frame dimensions to
absolute rectangle. -/
def resolveRect (s : String) (frameWidth frameHeight : Nat) : Rect :=
  resolveRawParams (parseParams s) frameWidth frameHeight

/-! ## Caption URL stripping (src/bot/processor.py, `remove_urls_from_text`)

`URL_REGEX = re.compile(r"https?://\S+|www\.\S+|t\.me/\S+", re.IGNORECASE)`
and `URL_REGEX.sub(collect, text)` are embedded as an explicit
leftmost-match scanner: Python's `re.sub` replaces non-overlapping matches
left to right, at each position trying the alternatives in pattern order,
with `\S+` greedy (at least one non-whitespace character). -/

/-- Python whitespace (`\s`, and the default `str.strip` set) for the
ASCII range: space, tab, newline, carriage return, vertical tab, form
feed. -/
def isSpaceChar (c : Char) : Bool :=
  c = ' ' || c = '\t' || c = '\n' || c = '\r' || c = '\x0b' || c = '\x0c'

/-- Case-insensitive literal prefix test (`re.IGNORECASE`). -/
def startsWithCI : List Char → List Char → Bool
  | [], _ => true
  | _ :: _, [] => false
  | p :: ps, c :: cs => (p.toLower = c.toLower) && startsWithCI ps cs

/-- Length of the maximal run of non-whitespace characters (`\S+` greedy). -/
def nonSpaceRun : List Char → Nat
  | [] => 0
  | c :: rest => if isSpaceChar c then 0 else 1 + nonSpaceRun rest

/-- Attempt one alternative `lit` followed by `\S+` at the head of `s`;
returns the total match length, or `none` if the literal is absent or no
non-whitespace character follows it. -/
def altLen (lit s : List Char) : Option Nat :=
  if startsWithCI lit s then
    let r := nonSpaceRun (s.drop lit.length)
    if r = 0 then none else some (lit.length + r)
  else none

def httpsLit : List Char := ['h', 't', 't', 'p', 's', ':', '/', '/']
def httpLit : List Char := ['h', 't', 't', 'p', ':', '/', '/']
def wwwLit : List Char := ['w', 'w', 'w', '.']
def tmeLit : List Char := ['t', '.', 'm', 'e', '/']

/-- Length of the regex match anchored at the head of `s`, if any.  The
alternatives are tried in pattern order; within `https?://` the greedy `s?`
prefers `https://` before backtracking to `http://`. -/
def matchLen (s : List Char) : Option Nat :=
  match altLen httpsLit s with
  | some n => some n
  | none =>
    match altLen httpLit s with
    | some n => some n
    | none =>
      match altLen wwwLit s with
      | some n => some n
      | none => altLen tmeLit s

lemma altLen_pos (lit s : List Char) (n : Nat) (h : altLen lit s = some n) : 0 < n := by
  unfold altLen at h
  by_cases h1 : startsWithCI lit s = true
  · simp only [h1, if_true] at h
    by_cases h2 : nonSpaceRun (s.drop lit.length) = 0
    · simp [h2] at h
    · simp only [h2, if_false] at h
      cases h
      omega
  · simp [h1] at h

lemma matchLen_pos (s : List Char) (n : Nat) (h : matchLen s = some n) : 0 < n := by
  unfold matchLen at h
  cases e1 : altLen httpsLit s with
  | some m => rw [e1] at h; cases h; exact altLen_pos _ _ _ e1
  | none =>
    rw [e1] at h
    cases e2 : altLen httpLit s with
    | some m => rw [e2] at h; cases h; exact altLen_pos _ _ _ e2
    | none =>
      rw [e2] at h
      cases e3 : altLen wwwLit s with
      | some m => rw [e3] at h; cases h; exact altLen_pos _ _ _ e3
      | none => rw [e3] at h; exact altLen_pos _ _ _ h

/-- The `re.sub` scan, fuelled so that it computes by structural recursion
(`scanSubAux_congr` below shows the fuel is irrelevant once it exceeds the
input length): at each position, either the regex matches (the matched
substring is collected and the scan resumes after it) or the head
character is kept. Returns the text with matches removed, and the removed
substrings in order of occurrence. -/
def scanSubAux : Nat → List Char → List Char × List String
  | 0, _ => ([], [])
  | _ + 1, [] => ([], [])
  | fuel + 1, c :: rest =>
    match matchLen (c :: rest) with
    | some n =>
      let r := scanSubAux fuel ((c :: rest).drop n)
      (r.1, String.mk ((c :: rest).take n) :: r.2)
    | none =>
      let r := scanSubAux fuel rest
      (c :: r.1, r.2)

def scanSub (s : List Char) : List Char × List String :=
  scanSubAux (s.length + 1) s

lemma scanSubAux_congr : ∀ (fuel fuel' : Nat) (s : List Char),
    s.length < fuel → s.length < fuel' → scanSubAux fuel s = scanSubAux fuel' s := by
  intro fuel
  induction fuel with
  | zero => intro fuel' s h; omega
  | succ f ih =>
    intro fuel' s h h'
    cases fuel' with
    | zero => omega
    | succ f' =>
      cases s with
      | nil => rfl
      | cons c rest =>
        have h1 : rest.length + 1 ≤ f := by
          simpa [Nat.lt_succ_iff] using h
        have h1' : rest.length + 1 ≤ f' := by
          simpa [Nat.lt_succ_iff] using h'
        simp only [scanSubAux]
        cases e : matchLen (c :: rest) with
        | some n =>
          have hn := matchLen_pos _ _ e
          have hlen : ((c :: rest).drop n).length < f := by
            rw [List.length_drop]
            simp only [List.length_cons]
            omega
          have hlen' : ((c :: rest).drop n).length < f' := by
            rw [List.length_drop]
            simp only [List.length_cons]
            omega
          dsimp only
          rw [ih f' _ hlen hlen']
        | none =>
          have hlen : rest.length < f := by omega
          have hlen' : rest.length < f' := by omega
          dsimp only
          rw [ih f' _ hlen hlen']

/-- Python `str.strip()`: remove leading and trailing whitespace. -/
def pyStrip (l : List Char) : List Char :=
  ((l.dropWhile isSpaceChar).reverse.dropWhile isSpaceChar).reverse

/-- `remove_urls_from_text`: `None`/empty text short-circuits to
`(None, [])`; otherwise the matches are removed and collected, the result
is stripped, and an empty stripped result becomes `None` (the Python
`cleaned if cleaned else None`). -/
def remove_urls_from_text (text : Option String) : Option String × List String :=
  match text with
  | none => (none, [])
  | some t =>
    if t = "" then (none, [])
    else
      let r := scanSub t.toList
      let cleaned := pyStrip r.1
      (if cleaned = [] then none else some (String.mk cleaned), r.2)

/-! ## Theorems for claims C1, C3, C5, C7, C8 -/

/-- C1: for every parameter string whose `x` parses to the opposite-edge
form `iw-<offset>` (here captured by the parsed parameter record) and every
frame width, the resolver computes `x = frameWidth - offset - w`, clamped
to `>= 0`; in particular, `frameWidth=640, w=150, x=iw-160` resolves to
`x=330`, and `frameWidth=300, w=150, x=iw-160` resolves to `x=0`. -/
theorem c1_parameter_resolution :
    (∀ (fw fh offset w h : Nat) (yv : AxisVal),
        (resolveRawParams ⟨AxisVal.edge offset, yv, w, h⟩ fw fh).x
          = (max 0 ((fw : Int) - (offset : Int) - (w : Int))).toNat)
  ∧ (resolveRect "x=iw-160:w=150" 640 480).x = 330
  ∧ (resolveRect "x=iw-160:w=150" 300 480).x = 0 := by
  refine ⟨fun fw fh offset w h yv => ?_, by decide, by decide⟩
  simp only [resolveRawParams, resolveAxis]
  omega

/-- C3 counterexample: with watermark removal enabled and the subprocess
failing (non-zero exit raising `CalledProcessError` with diagnostic output
"delogo failed"), `remove_watermark` returns the input path `"video.mp4"`
itself — the success-shaped value the claim rules out — and carries no
portion of the diagnostic output. -/
theorem c3_failure_counterexample :
    remove_watermark true "video.mp4" (SubprocOutcome.raised "delogo failed")
      = "video.mp4" := rfl

/-- C3 amended: when the external media-filter subprocess exits with a
non-zero status (or any other exception occurs), `remove_watermark`
catches the exception, logs it, and returns the input path unchanged as if
successful; no error value and no portion of the diagnostic output is
propagated to the caller. -/
theorem c3_failure_returns_input_path (videoPath stderr : String) :
    remove_watermark true videoPath (SubprocOutcome.raised stderr) = videoPath := rfl

/-- C5: after a retention sweep in which every deletion succeeds, every
swept regular file strictly older than the cutoff
(`now - older_than_hours * 3600`) is gone from the survivors, and every
entry at least as new as the cutoff is still there. -/
theorem c5_retention_sweep (now : Int) (hours : Nat) (files : List TempFile)
    (hok : ∀ f ∈ files, f.removeOk = true) :
    (∀ f ∈ files, f.isFile = true → f.mtime < now - (hours : Int) * 3600 →
        f ∉ (cleanup_temp_files now hours files).1)
  ∧ (∀ f ∈ files, now - (hours : Int) * 3600 ≤ f.mtime →
        f ∈ (cleanup_temp_files now hours files).1) := by
  unfold cleanup_temp_files
  rw [sweepFiles_eq]
  constructor
  · intro f hf hfile hm hmem
    have h := (List.mem_filter.mp hmem).2
    rw [sweptAway] at h
    simp [hfile, hok f hf, hm] at h
  · intro f hf hm
    refine List.mem_filter.mpr ⟨hf, ?_⟩
    simp only [sweptAway, Bool.not_eq_true', Bool.and_eq_false_iff]
    left; right
    simpa using not_lt.mpr hm

/-- The concrete directory contents used to witness C5. -/
def c5files : List TempFile :=
  [⟨"old.mp4", 0, true, true⟩, ⟨"new.mp4", 9000, true, true⟩]

/-- C5 witness: at `now = 10000` with a 1-hour threshold (cutoff 6400),
the stale file of mtime 0 is deleted and the fresh file of mtime 9000
survives. -/
theorem c5_retention_sweep_witness :
    (∀ f ∈ c5files, f.removeOk = true)
  ∧ (⟨"old.mp4", 0, true, true⟩ : TempFile) ∉ (cleanup_temp_files 10000 1 c5files).1
  ∧ (⟨"new.mp4", 9000, true, true⟩ : TempFile) ∈ (cleanup_temp_files 10000 1 c5files).1 := by
  refine ⟨by decide, ?_, ?_⟩
  · exact (c5_retention_sweep 10000 1 c5files (by decide)).1 _ (by decide) rfl (by decide)
  · exact (c5_retention_sweep 10000 1 c5files (by decide)).2 _ (by decide) (by decide)

/-- C7: the retention sweep is a total function of the directory contents —
it returns normally on every input.  Its result is characterised in closed
form: an entry survives unless it is a stale regular file whose deletion
succeeded, so a per-file deletion failure leaves exactly that file in
place while every other stale file is still removed (the sweep continues);
and every failed deletion is caught and logged rather than raised. -/
theorem c7_sweep_never_raises (now : Int) (hours : Nat) (files : List TempFile) :
    (cleanup_temp_files now hours files =
      (files.filter (fun f => !sweptAway (now - (hours : Int) * 3600) f),
       (files.filter (sweepFailed (now - (hours : Int) * 3600))).map
         (fun f => "Error removing " ++ f.name)))
  ∧ (∀ f ∈ files, f.isFile = true → f.mtime < now - (hours : Int) * 3600 →
        f.removeOk = false →
        f ∈ (cleanup_temp_files now hours files).1
        ∧ ("Error removing " ++ f.name) ∈ (cleanup_temp_files now hours files).2) := by
  have hc : cleanup_temp_files now hours files =
      (files.filter (fun f => !sweptAway (now - (hours : Int) * 3600) f),
       (files.filter (sweepFailed (now - (hours : Int) * 3600))).map
         (fun f => "Error removing " ++ f.name)) := sweepFiles_eq _ files
  refine ⟨hc, fun f hf hfile hm hfail => ⟨?_, ?_⟩⟩
  · rw [hc]
    refine List.mem_filter.mpr ⟨hf, ?_⟩
    simp [sweptAway, hfile, hfail]
  · rw [hc]
    exact List.mem_map.mpr ⟨f, List.mem_filter.mpr ⟨hf, by simp [sweepFailed, hfile, hfail, hm]⟩, rfl⟩

/-- The concrete directory contents used to witness C7: one stale file
whose deletion fails, one stale file whose deletion succeeds. -/
def c7files : List TempFile :=
  [⟨"locked.mp4", 0, true, false⟩, ⟨"stale.mp4", 0, true, true⟩]

/-- C7 witness: a stale file whose deletion fails (permission denied) is
still present after the sweep and its failure is logged; the sweep itself
returned the characterised value. -/
theorem c7_sweep_never_raises_witness :
    ((⟨"locked.mp4", 0, true, false⟩ : TempFile) ∈ c7files
      ∧ (⟨"locked.mp4", 0, true, false⟩ : TempFile).mtime < 10000 - (1 : Int) * 3600)
  ∧ (⟨"locked.mp4", 0, true, false⟩ : TempFile) ∈ (cleanup_temp_files 10000 1 c7files).1
  ∧ "Error removing locked.mp4" ∈ (cleanup_temp_files 10000 1 c7files).2 := by
  refine ⟨⟨by decide, by decide⟩, ?_⟩
  have h := (c7_sweep_never_raises 10000 1 c7files).2
    ⟨"locked.mp4", 0, true, false⟩ (by decide) rfl (by decide) rfl
  exact h

/-- C8: the filter-graph removal command always carries `-c:a copy` and a
`-vf`-only transform, so under the modelled subprocess semantics the
output's audio stream is exactly the input's audio stream, and only the
video stream passes through the (abstract) re-encoding filter. -/
theorem c8_audio_passthrough (encodeAudio : List Nat → List Nat)
    (applyVf : String → List Nat → List Nat) (videoPath : String) (input : MediaFile) :
    (ffmpegModel encodeAudio applyVf (watermark_command videoPath) input).audio
        = input.audio
  ∧ (ffmpegModel encodeAudio applyVf (watermark_command videoPath) input).video
        = applyVf "delogo=x=10:y=10:w=100:h=30:show=0" input.video := by
  have h : optPairs (watermark_command videoPath) =
      [("-i", videoPath), ("-vf", "delogo=x=10:y=10:w=100:h=30:show=0"),
       ("-c:a", "copy")] := rfl
  constructor <;> simp [ffmpegModel, h, List.lookup]

/-- C10: when the residue left after removing every URL match is all
whitespace, `remove_urls_from_text` returns `none` as the cleaned caption —
never an empty string — together with the removed URL substrings in their
order of occurrence; and `None`/empty input maps to `(None, [])`. -/
theorem c10_urls_only_caption_none :
    (remove_urls_from_text none = (none, [])
      ∧ remove_urls_from_text (some "") = (none, []))
  ∧ (∀ t : String, ((scanSub t.toList).1.all isSpaceChar) = true →
      (remove_urls_from_text (some t)).1 = none
      ∧ (remove_urls_from_text (some t)).2 = (scanSub t.toList).2) := by
  refine ⟨⟨rfl, rfl⟩, fun t ht => ?_⟩
  have hstrip : pyStrip (scanSub t.toList).1 = [] := by
    have h1 : (scanSub t.toList).1.dropWhile isSpaceChar = [] :=
      List.dropWhile_eq_nil_iff.mpr fun x hx => List.all_eq_true.mp ht x hx
    unfold pyStrip
    rw [h1]
    rfl
  by_cases h0 : t = ""
  · subst h0
    exact ⟨rfl, rfl⟩
  · have hstrip' : pyStrip (scanSub t.data).1 = [] := hstrip
    simp [remove_urls_from_text, h0, hstrip']

/-- C10 witness: the caption `"https://a.b www.c"` consists only of URL
matches and a separating space; the cleaned caption is `none` (not `""`)
and the removed substrings come back in order. -/
theorem c10_urls_only_caption_none_witness :
    ((scanSub ("https://a.b www.c".toList)).1.all isSpaceChar) = true
  ∧ (remove_urls_from_text (some "https://a.b www.c")).1 = none
  ∧ (remove_urls_from_text (some "https://a.b www.c")).2 = ["https://a.b", "www.c"] := by
  have h := c10_urls_only_caption_none.2 "https://a.b www.c" (by decide)
  exact ⟨by decide, h.1, h.2.trans (by decide)⟩

/-! ## The dispatch worker (src/bot/processor.py, `worker`)

The worker loop pulls one message at a time from the queue.  Every
external effect — the Telegram client calls and the content-hash download —
is represented by its outcome, supplied in a `WorkerEnv`; an `Except.error`
models the call raising.  The `try/except` structure of the Python body is
embedded literally: each guarded call pattern-matches on its outcome, and
the whole body runs in `Except` with the outer `except Exception` catching
whatever escapes. -/

structure Media where
  file_unique_id : String
  file_id : String
deriving DecidableEq, Repr

structure TgMessage where
  chat_id : Int
  message_id : Nat
  video : Option Media
  document : Option Media
  animation : Option Media
  caption : Option String
  text : Option String
deriving DecidableEq, Repr

/-- The dedup ledger `files_col`: the stored `file_unique_id` keys and the
stored `file_hash` values (present only for documents inserted with a
computed hash). -/
structure FilesCol where
  uids : List String
  hashes : List String
deriving DecidableEq, Repr

/-- `is_duplicate_by_unique_id`: one `find_one` on `file_unique_id`. -/
def is_duplicate_by_unique_id (db : FilesCol) (uid : String) : Bool :=
  db.uids.contains uid

/-- `mark_seen`: one `insert_one` of the id (and the hash when computed). -/
def mark_seen (db : FilesCol) (uid : String) (hash : Option String) : FilesCol :=
  { db with
      uids := uid :: db.uids,
      hashes := match hash with | some h => h :: db.hashes | none => db.hashes }

/-- Outcomes of the worker's external calls for one message. -/
structure WorkerEnv where
  computedHash : Option String
  delDuplicate : Except String Unit
  delDuplicateByHash : Except String Unit
  sendProcessing : Except String Nat
  sendMedia : Except String Nat
  delOriginal : Except String Unit
  finalize : Except String Unit

/-- The observable actions the worker performs / logs. -/
inductive Action where
  | deletedDuplicate (uid : String)
  | deleteFailed (e : String)
  | deletedDuplicateByHash (h : String)
  | deleteFailedHash (e : String)
  | markedSeen (uid : String)
  | sentMedia (msgId : Nat) (caption : Option String)
  | sendFailed (e : String)
  | deletedOriginal
  | deleteOriginalFailed (e : String)
  | processedLog (sentId : Option Nat) (removedLinks : List String)
  | workerException (e : String)
deriving DecidableEq, Repr

/-- Python truthiness of an optional string (`""` is falsy). -/
def pyTruthy : Option String → Option String
  | some t => if t = "" then none else some t
  | none => none

/-- `message.caption or message.text or None`. -/
def rawText (m : TgMessage) : Option String :=
  match pyTruthy m.caption with
  | some c => some c
  | none => pyTruthy m.text

/-- The worker's media-field dispatch: video, then document, then
animation. -/
def fileOf (m : TgMessage) : Option Media :=
  match m.video with
  | some v => some v
  | none =>
    match m.document with
    | some d => some d
    | none => m.animation

/-- The tail of the worker body once the submission is accepted as new:
`mark_seen`, caption cleaning, the processing status message (failures
ignored), the re-send by `file_id` (failure logged), the delete of the
original (failure logged), and the final `processed` log entry. -/
def processTail (m : TgMessage) (env : WorkerEnv) (db : FilesCol)
    (uid : String) (hash : Option String) : FilesCol × List Action :=
  let db' := mark_seen db uid hash
  let cc := remove_urls_from_text (rawText m)
  let _procMsg : Option Nat :=
    match env.sendProcessing with
    | Except.ok n => some n
    | Except.error _ => none
  let send : Option Nat × List Action :=
    match env.sendMedia with
    | Except.ok n => (some n, [Action.sentMedia n cc.1])
    | Except.error e => (none, [Action.sendFailed e])
  let del : List Action :=
    match env.delOriginal with
    | Except.ok _ => [Action.deletedOriginal]
    | Except.error _ => []
  let delFail : List Action :=
    match env.delOriginal with
    | Except.ok _ => []
    | Except.error e => [Action.deleteOriginalFailed e]
  let _fin : Option Unit :=
    match env.finalize with
    | Except.ok u => some u
    | Except.error _ => none
  (db', Action.markedSeen uid :: (send.2 ++ del ++ delFail
          ++ [Action.processedLog send.1 cc.2]))

/-- The worker body inside the outer `try`, as an `Except` computation:
an `Except.error` result would be an exception escaping every inner
handler. -/
def workerBodyInner (useHash : Bool) (m : TgMessage) (env : WorkerEnv)
    (db : FilesCol) : Except String (FilesCol × List Action) :=
  match fileOf m with
  | none => Except.ok (db, [])
  | some media =>
    let uid := media.file_unique_id
    if is_duplicate_by_unique_id db uid then
      match env.delDuplicate with
      | Except.ok _ => Except.ok (db, [Action.deletedDuplicate uid])
      | Except.error e => Except.ok (db, [Action.deleteFailed e])
    else
      let fileHash : Option String := if useHash then env.computedHash else none
      match fileHash with
      | some h =>
        if db.hashes.contains h then
          match env.delDuplicateByHash with
          | Except.ok _ => Except.ok (db, [Action.deletedDuplicateByHash h])
          | Except.error e => Except.ok (db, [Action.deleteFailedHash e])
        else Except.ok (processTail m env db uid (some h))
      | none => Except.ok (processTail m env db uid none)

/-- The worker body with the outer `except Exception` net. -/
def workerBody (useHash : Bool) (m : TgMessage) (env : WorkerEnv)
    (db : FilesCol) : FilesCol × List Action :=
  match workerBodyInner useHash m env db with
  | Except.ok r => r
  | Except.error e => (db, [Action.workerException e])

/-! ### Queue bookkeeping (`queue.Queue.task_done`)

`workerBody` above covers the message handling; the `q.task_done()` calls
are modelled here.  The source calls `q.task_done()` on each
early-`continue` branch (no media id, duplicate by unique id, duplicate by
hash — src/bot/processor.py lines 82, 95 and 111) AND unconditionally in
the `finally` clause (line 168), so those branches acknowledge the same
queue item twice.  `queue.Queue.task_done` raises
`ValueError("task_done() called too many times")` when the unfinished-task
counter would go negative; raised from the `finally` clause, that
exception cannot be caught by the `except` of the same `try` statement and
escapes the `while True` loop. -/

/-- `queue.Queue.task_done`: decrement the unfinished-task counter, or
raise when it is already exhausted. -/
def task_done (unfinished : Nat) : Except String Nat :=
  if unfinished = 0 then Except.error "task_done() called too many times"
  else Except.ok (unfinished - 1)

/-- How many `q.task_done()` calls the try-body itself makes before the
`finally`: one on each early-`continue` branch, none on the full
processing path.  The branch structure mirrors `workerBodyInner`. -/
def branchTaskDones (useHash : Bool) (m : TgMessage) (env : WorkerEnv)
    (db : FilesCol) : Nat :=
  match fileOf m with
  | none => 1
  | some media =>
    if is_duplicate_by_unique_id db media.file_unique_id then 1
    else
      match (if useHash then env.computedHash else none : Option String) with
      | some h => if db.hashes.contains h then 1 else 0
      | none => 0

/-- One full iteration of the worker loop for a message taken off the
queue, with `unfinished` the queue's unfinished-task counter at that
point.  The try-body's own failures are all handled (`workerBody` never
raises); its branch-local `task_done` decrements the counter when it can —
a `ValueError` from that call would be raised inside the `try` and caught
(by the outer `except` on the no-media and duplicate branches, by the hash
block's `except: pass`), and a failed call does not decrement, which the
truncated `Nat` subtraction reflects.  The `finally` then calls
`task_done` once more; a `ValueError` there escapes the whole `try`
statement, so it is the iteration's `Except.error` result. -/
def workerIteration (useHash : Bool) (m : TgMessage) (env : WorkerEnv)
    (db : FilesCol) (unfinished : Nat) :
    Except String (FilesCol × List Action × Nat) :=
  let r := workerBody useHash m env db
  let afterBody := unfinished - branchTaskDones useHash m env db
  match task_done afterBody with
  | Except.ok u => Except.ok (r.1, r.2, u)
  | Except.error e => Except.error e

/-- The worker loop over an initially queued batch of submissions,
threading the ledger and the unfinished-task counter.  Returns the action
records of the iterations that completed and, when an iteration's
`finally` raised, the escaping exception — after which the coroutine is
dead (it was started as a fire-and-forget task in src/bot/main.py) and no
further submission is handled. -/
def runWorkerQueue (useHash : Bool) :
    List (TgMessage × WorkerEnv) → FilesCol → Nat →
    List (List Action) × Option String
  | [], _, _ => ([], none)
  | (m, env) :: rest, db, unfinished =>
    match workerIteration useHash m env db unfinished with
    | Except.ok r =>
      let rr := runWorkerQueue useHash rest r.1 r.2.2
      (r.2.1 :: rr.1, rr.2)
    | Except.error e => ([], some e)

/-- The submissions and call outcomes of C9's failing input: the ledger
already holds `"u1"`, the queue holds a duplicate submission of `"u1"`
followed by a fresh one. -/
def c9dupMsg : TgMessage := ⟨100, 3, some ⟨"u1", "f1"⟩, none, none, none, none⟩

def c9freshMsg : TgMessage := ⟨100, 4, some ⟨"u2", "f2"⟩, none, none, none, none⟩

def c9env : WorkerEnv :=
  ⟨none, Except.ok (), Except.ok (), Except.ok 20, Except.ok 21,
   Except.ok (), Except.ok ()⟩

def c9db : FilesCol := ⟨["u1"], []⟩

/-- C9 at its failing input — a queued duplicate submission.  The try-body
itself contains every failure (first conjunct: the body never raises), so
the claim is the intended behaviour; but the duplicate branch has already
called `q.task_done()` when the `finally` calls it again, and with the
counter exhausted the second call raises `ValueError` out of the `finally`
(second conjunct), which the loop's `except` cannot catch.  Queued behind
a second, fresh submission, the loop completes only one iteration and the
fault escapes, killing the worker (third and fourth conjuncts) — the loop
does not go on resolving submissions as the claim states. -/
theorem c9_task_done_valueerror :
    (workerBodyInner false c9dupMsg c9env c9db).isOk = true
  ∧ workerIteration false c9dupMsg c9env c9db 1
      = Except.error "task_done() called too many times"
  ∧ (runWorkerQueue false [(c9dupMsg, c9env), (c9freshMsg, c9env)] c9db 2).1.length = 1
  ∧ (runWorkerQueue false [(c9dupMsg, c9env), (c9freshMsg, c9env)] c9db 2).2
      = some "task_done() called too many times" := by
  refine ⟨rfl, rfl, rfl, rfl⟩

lemma workerBody_duplicate (useHash : Bool) (m : TgMessage) (env : WorkerEnv)
    (db : FilesCol) (med : Media) (hm : fileOf m = some med)
    (hd : is_duplicate_by_unique_id db med.file_unique_id = true) :
    workerBody useHash m env db =
      (db, match env.delDuplicate with
           | Except.ok _ => [Action.deletedDuplicate med.file_unique_id]
           | Except.error e => [Action.deleteFailed e]) := by
  unfold workerBody workerBodyInner
  rw [hm]
  dsimp only
  rw [hd]
  simp only [if_true]
  cases env.delDuplicate <;> rfl

lemma workerBody_fresh (m : TgMessage) (env : WorkerEnv) (db : FilesCol)
    (med : Media) (hm : fileOf m = some med)
    (hd : is_duplicate_by_unique_id db med.file_unique_id = false) :
    workerBody false m env db = processTail m env db med.file_unique_id none := by
  unfold workerBody workerBodyInner
  rw [hm]
  dsimp only
  rw [hd]
  simp

/-- C2: a first submission whose transport unique id is not yet in the
ledger is processed (`mark_seen` runs, the re-send is attempted); a second
submission carrying the same unique id is detected as a duplicate before
any processing — its run registers nothing, sends nothing, performs no
caption cleaning, and leaves the ledger unchanged. -/
theorem c2_dedup_second_submission (m1 m2 : TgMessage) (env1 env2 : WorkerEnv)
    (db : FilesCol) (med1 med2 : Media)
    (h1 : fileOf m1 = some med1) (h2 : fileOf m2 = some med2)
    (hk : med2.file_unique_id = med1.file_unique_id)
    (hnew : db.uids.contains med1.file_unique_id = false) :
    (Action.markedSeen med1.file_unique_id ∈ (workerBody false m1 env1 db).2)
  ∧ (∀ u, Action.markedSeen u ∉
        (workerBody false m2 env2 (workerBody false m1 env1 db).1).2)
  ∧ (∀ n c, Action.sentMedia n c ∉
        (workerBody false m2 env2 (workerBody false m1 env1 db).1).2)
  ∧ (workerBody false m2 env2 (workerBody false m1 env1 db).1).1
      = (workerBody false m1 env1 db).1 := by
  have e1 : workerBody false m1 env1 db
      = processTail m1 env1 db med1.file_unique_id none :=
    workerBody_fresh m1 env1 db med1 h1 hnew
  have edb1 : (workerBody false m1 env1 db).1
      = mark_seen db med1.file_unique_id none := by
    rw [e1]
    rfl
  have hc : is_duplicate_by_unique_id (workerBody false m1 env1 db).1
      med2.file_unique_id = true := by
    rw [edb1, hk]
    simp [is_duplicate_by_unique_id, mark_seen, List.contains_cons]
  have e2 : workerBody false m2 env2 (workerBody false m1 env1 db).1
      = ((workerBody false m1 env1 db).1,
         match env2.delDuplicate with
         | Except.ok _ => [Action.deletedDuplicate med2.file_unique_id]
         | Except.error e => [Action.deleteFailed e]) :=
    workerBody_duplicate false m2 env2 _ med2 h2 hc
  refine ⟨?_, ?_, ?_, ?_⟩
  · rw [e1]
    exact List.mem_cons_self _ _
  · intro u
    rw [e2]
    cases env2.delDuplicate <;> simp
  · intro n c
    rw [e2]
    cases env2.delDuplicate <;> simp
  · rw [e2]

/-- The concrete submissions and call outcomes used to witness C2. -/
def c2msg1 : TgMessage := ⟨100, 1, some ⟨"u1", "f1"⟩, none, none, none, none⟩

def c2msg2 : TgMessage := ⟨100, 2, some ⟨"u1", "f1"⟩, none, none, none, none⟩

def c2env : WorkerEnv :=
  ⟨none, Except.ok (), Except.ok (), Except.ok 10, Except.ok 11,
   Except.ok (), Except.ok ()⟩

/-- C2 witness: with an empty ledger, the first of two submissions sharing
`file_unique_id = "u1"` is registered and the second registers and sends
nothing. -/
theorem c2_dedup_second_submission_witness :
    (fileOf c2msg1 = some ⟨"u1", "f1"⟩
      ∧ fileOf c2msg2 = some ⟨"u1", "f1"⟩
      ∧ (FilesCol.mk [] []).uids.contains "u1" = false)
  ∧ (Action.markedSeen "u1" ∈ (workerBody false c2msg1 c2env ⟨[], []⟩).2)
  ∧ (∀ u, Action.markedSeen u ∉
        (workerBody false c2msg2 c2env (workerBody false c2msg1 c2env ⟨[], []⟩).1).2)
  ∧ (∀ n c, Action.sentMedia n c ∉
        (workerBody false c2msg2 c2env (workerBody false c2msg1 c2env ⟨[], []⟩).1).2) := by
  have h := c2_dedup_second_submission c2msg1 c2msg2 c2env c2env ⟨[], []⟩
    ⟨"u1", "f1"⟩ ⟨"u1", "f1"⟩ rfl rfl rfl (by decide)
  exact ⟨⟨rfl, rfl, by decide⟩, h.1, h.2.1, h.2.2.1⟩

/-! ## Dedup check-and-register under concurrency (src/state.py)

`check_duplicate` is one `find_one` and `add_duplicate` one `insert_one` on
a collection with no unique index (src/db.py creates none): the store
guarantees each call is atomic, but nothing makes the pair atomic.  Two
concurrent submissions carrying the same key are two threads each running
`check; if not dup: register`, interleaved in some order of the individual
store operations. -/

/-- One submission's position in its check-then-register program. -/
inductive DedupThread where
  | beforeCheck
  | beforeRegister (sawDuplicate : Bool)
  | finished (sawDuplicate : Bool)
deriving DecidableEq, Repr

/-- One atomic store operation of a thread: `check_duplicate k` (a single
`find_one`) records whether `k` was present; `add_duplicate k` (a single
`insert_one`) runs only when the check saw no duplicate. -/
def dedupStep (k : String) (db : List String) :
    DedupThread → List String × DedupThread
  | DedupThread.beforeCheck =>
      (db, DedupThread.beforeRegister (db.contains k))
  | DedupThread.beforeRegister saw =>
      if saw then (db, DedupThread.finished saw)
      else (k :: db, DedupThread.finished saw)
  | DedupThread.finished saw => (db, DedupThread.finished saw)

/-- The shared collection and the two submissions' threads. -/
structure DedupSys where
  db : List String
  t1 : DedupThread
  t2 : DedupThread
deriving DecidableEq, Repr

/-- Run one store operation of the scheduled thread (`true` = thread 1). -/
def sysStep (k : String) (s : DedupSys) (choose1 : Bool) : DedupSys :=
  if choose1 then
    let r := dedupStep k s.db s.t1
    { s with db := r.1, t1 := r.2 }
  else
    let r := dedupStep k s.db s.t2
    { s with db := r.1, t2 := r.2 }

/-- Run a whole interleaving (a schedule of thread choices). -/
def runSched (k : String) (sched : List Bool) (s : DedupSys) : DedupSys :=
  sched.foldl (sysStep k) s

/-- The initial system: both submissions about to run their check. -/
def initSys (db : List String) : DedupSys :=
  ⟨db, DedupThread.beforeCheck, DedupThread.beforeCheck⟩

/-- C4 counterexample: interleaving the two submissions of key `"file1"`
as check₁, check₂, register₁, register₂ on an empty ledger makes BOTH pass
the duplicate check (`sawDuplicate = false`) and BOTH register — the
check-and-register pair is not one atomic operation. -/
theorem c4_atomicity_counterexample :
    runSched "file1" [true, false, true, false] (initSys [])
      = ⟨["file1", "file1"], DedupThread.finished false,
         DedupThread.finished false⟩ := by decide

/-- C4 amended: the deduplicator's check-and-register step is two separate
store operations (`find_one`, then `insert_one` with no unique index), not
one atomic operation.  When one submission's two operations complete
before the other's begin (the serialized schedule), the second submission
sees the duplicate and the key is registered once; but under the
interleaved schedule check₁,check₂,register₁,register₂ both submissions
pass the check and the key is registered twice. -/
theorem c4_dedup_check_register_not_atomic (k : String) (db : List String)
    (hnew : db.contains k = false) :
    ((runSched k [true, true, false, false] (initSys db)).t1
        = DedupThread.finished false
      ∧ (runSched k [true, true, false, false] (initSys db)).t2
        = DedupThread.finished true
      ∧ (runSched k [true, true, false, false] (initSys db)).db = k :: db)
  ∧ ((runSched k [true, false, true, false] (initSys db)).t1
        = DedupThread.finished false
      ∧ (runSched k [true, false, true, false] (initSys db)).t2
        = DedupThread.finished false
      ∧ (runSched k [true, false, true, false] (initSys db)).db
        = k :: k :: db) := by
  have hnew' : k ∉ db := by simpa using hnew
  refine ⟨⟨?_, ?_, ?_⟩, ⟨?_, ?_, ?_⟩⟩ <;>
    simp [runSched, sysStep, dedupStep, initSys, hnew', List.mem_cons_self]

/-- C4 witness for the amended claim, at `k = "file1"` on the empty
ledger: serialized, exactly one registration and the second submission
sees the duplicate; interleaved, both pass. -/
theorem c4_dedup_check_register_not_atomic_witness :
    ([] : List String).contains "file1" = false
  ∧ ((runSched "file1" [true, true, false, false] (initSys [])).t2
        = DedupThread.finished true
      ∧ (runSched "file1" [true, true, false, false] (initSys [])).db = ["file1"]
      ∧ (runSched "file1" [true, false, true, false] (initSys [])).t2
        = DedupThread.finished false) := by
  have h := c4_dedup_check_register_not_atomic "file1" [] (by decide)
  exact ⟨by decide, h.1.2.1, h.1.2.2, h.2.2.1⟩

/-! ## Progress Reporter (spec §2, §4.3) — modelled from the spec

Modelled from the spec: no Progress Reporter exists in the source tree (no
code in src/ parses subprocess `time=` tokens or emits percent updates);
the reporter below follows the spec's words.  A processing run is a list
of progress signals `(timestampMs, currentSeconds)`; the percent is
`clamp(0, 100, round(currentSeconds / duration * 100))` (0 while the
duration is unknown), an update is emitted when the percent moved by at
least 2 from the last emitted value or at least 1.5 s (1500 ms) elapsed
since the last emission, and completion forces a final 100. -/

/-- `percent = clamp(0, 100, round(currentSeconds / duration * 100))`;
duration 0 stands for "duration unknown", keeping the percent at 0. -/
def percentOf (duration secs : Nat) : Nat :=
  if duration = 0 then 0 else min 100 ((secs * 100 + duration / 2) / duration)

/-- Distance between two percent values. -/
def natDist (a b : Nat) : Nat := if a ≤ b then b - a else a - b

/-- The throttled emission loop over the progress signals, carrying the
last emitted percent and its timestamp. -/
def emitProgress (duration : Nat) :
    List (Nat × Nat) → Nat → Nat → List Nat
  | [], _, _ => []
  | (tMs, secs) :: rest, lastP, lastT =>
    if 2 ≤ natDist lastP (percentOf duration secs) ∨ 1500 ≤ tMs - lastT then
      percentOf duration secs :: emitProgress duration rest (percentOf duration secs) tMs
    else
      emitProgress duration rest lastP lastT

/-- The percent values a completed job emits: the throttled stream
(starting from the initial `progress = 0` at time 0), then the forced
final 100. -/
def completedEmissions (duration : Nat) (signals : List (Nat × Nat)) : List Nat :=
  emitProgress duration signals 0 0 ++ [100]

lemma percentOf_le (d s : Nat) : percentOf d s ≤ 100 := by
  unfold percentOf
  split
  · omega
  · exact min_le_left _ _

lemma percentOf_mono (d : Nat) {a b : Nat} (h : a ≤ b) :
    percentOf d a ≤ percentOf d b := by
  unfold percentOf
  split
  · omega
  · exact min_le_min (le_refl 100)
      (Nat.div_le_div_right (by omega))

lemma emitProgress_le (d : Nat) :
    ∀ (signals : List (Nat × Nat)) (lastP lastT : Nat),
      ∀ x ∈ emitProgress d signals lastP lastT, x ≤ 100 := by
  intro signals
  induction signals with
  | nil => intro lastP lastT x hx; simp [emitProgress] at hx
  | cons sg rest ih =>
    intro lastP lastT x hx
    obtain ⟨tMs, secs⟩ := sg
    simp only [emitProgress] at hx
    by_cases hcond : 2 ≤ natDist lastP (percentOf d secs) ∨ 1500 ≤ tMs - lastT
    · rw [if_pos hcond] at hx
      rcases List.mem_cons.mp hx with h | h
      · subst h; exact percentOf_le d secs
      · exact ih _ _ x h
    · rw [if_neg hcond] at hx
      exact ih _ _ x hx

lemma emitProgress_chain (d : Nat) :
    ∀ (signals : List (Nat × Nat)) (lastP lastT : Nat),
      signals.Pairwise (fun a b => a.2 ≤ b.2) →
      (∀ x ∈ signals, lastP ≤ percentOf d x.2) →
      List.Chain (· ≤ ·) lastP (emitProgress d signals lastP lastT) := by
  intro signals
  induction signals with
  | nil => intro lastP lastT _ _; exact List.Chain.nil
  | cons sg rest ih =>
    intro lastP lastT hpw hlb
    obtain ⟨hpw1, hpw2⟩ := List.pairwise_cons.mp hpw
    obtain ⟨tMs, secs⟩ := sg
    simp only [emitProgress]
    by_cases hcond : 2 ≤ natDist lastP (percentOf d secs) ∨ 1500 ≤ tMs - lastT
    · simp only [if_pos hcond]
      exact List.Chain.cons (hlb (tMs, secs) (List.mem_cons_self _ _))
        (ih (percentOf d secs) tMs hpw2
          (fun x hx => percentOf_mono d (hpw1 x hx)))
    · simp only [if_neg hcond]
      exact ih lastP lastT hpw2
        (fun x hx => hlb x (List.mem_cons_of_mem _ hx))

/-- C6: for a completed job whose progress signals carry non-decreasing
media positions, the emitted percent sequence is non-decreasing and its
final value is 100. -/
theorem c6_progress_monotone (d : Nat) (signals : List (Nat × Nat))
    (hmono : signals.Pairwise (fun a b => a.2 ≤ b.2)) :
    List.Chain' (· ≤ ·) (completedEmissions d signals)
  ∧ (completedEmissions d signals).getLast? = some 100 := by
  constructor
  · unfold completedEmissions
    have hch : List.Chain (· ≤ ·) 0 (emitProgress d signals 0 0) :=
      emitProgress_chain d signals 0 0 hmono (fun x _ => Nat.zero_le _)
    have hch' : List.Chain' (· ≤ ·) (emitProgress d signals 0 0) :=
      (List.chain'_cons'.mp (hch : List.Chain' (· ≤ ·)
        (0 :: emitProgress d signals 0 0))).2
    refine List.chain'_append.mpr ⟨hch', List.chain'_singleton _, ?_⟩
    intro x hx y hy
    simp only [List.head?_cons, Option.mem_def, Option.some.injEq] at hy
    subst hy
    obtain ⟨hne, hx'⟩ := List.mem_getLast?_eq_getLast hx
    exact hx' ▸ emitProgress_le d signals 0 0 _ (List.getLast_mem hne)
  · unfold completedEmissions
    rw [List.getLast?_append_cons]
    rfl

/-- C6 witness: a 10-second clip reporting positions 3 s, 5 s and 10 s at
times 0 ms, 2000 ms, 3000 ms emits a non-decreasing percent sequence
ending in 100. -/
theorem c6_progress_monotone_witness :
    ([(0, 3), (2000, 5), (3000, 10)] : List (Nat × Nat)).Pairwise
        (fun a b => a.2 ≤ b.2)
  ∧ List.Chain' (· ≤ ·) (completedEmissions 10 [(0, 3), (2000, 5), (3000, 10)])
  ∧ (completedEmissions 10 [(0, 3), (2000, 5), (3000, 10)]).getLast?
      = some 100 := by
  have h := c6_progress_monotone 10 [(0, 3), (2000, 5), (3000, 10)] (by decide)
  exact ⟨by decide, h.1, h.2⟩

end RemoveUrl
